import Mathlib

/-!
Verification of the Aegis-9 data-protection core
(src/core: key_derivation.py, encryption_engine.py, ecc_hardware_manager.py,
fragmenter.py, canary_tokens.py).

Bytes are modelled as `List Nat` (each entry a byte value).  The hash
primitives the source calls (`hashlib.sha256`, `hashlib.sha512`, `hmac.new`)
are embedded as executable Lean functions implementing the real SHA-2 and
HMAC algorithms, so every digest has its true fixed length.
-/

set_option maxRecDepth 200000

/-- Right rotation of an `bits`-bit word. -/
def rotr (bits n x : Nat) : Nat :=
  ((x >>> n) ||| (x <<< (bits - n))) % 2 ^ bits

/-- Big-endian byte serialization of `x`, exactly `w` bytes wide. -/
def wordBytes (w : Nat) (x : Nat) : List Nat :=
  (List.range w).map (fun i => x >>> (8 * (w - 1 - i)) % 256)

/-- Big-endian word assembly from bytes. -/
def bytesToWord (bs : List Nat) : Nat :=
  bs.foldl (fun a b => a * 256 + b) 0

/-- The running 8-word state of a SHA-2 computation. -/
structure Sha2State where
  a : Nat
  b : Nat
  c : Nat
  d : Nat
  e : Nat
  f : Nat
  g : Nat
  h : Nat

/-- Configuration distinguishing SHA-256 from SHA-512: word size in bits,
block size in bytes, round constants, initial state and the rotation /
shift amounts of the four sigma functions. -/
structure ShaCfg where
  bits : Nat
  bs : Nat
  lenBytes : Nat
  K : List Nat
  H0 : Sha2State
  bigS0 : Nat × Nat × Nat
  bigS1 : Nat × Nat × Nat
  smlS0 : Nat × Nat × Nat
  smlS1 : Nat × Nat × Nat

def shaBigSigma0 (c : ShaCfg) (x : Nat) : Nat :=
  rotr c.bits c.bigS0.1 x ^^^ rotr c.bits c.bigS0.2.1 x ^^^ rotr c.bits c.bigS0.2.2 x

def shaBigSigma1 (c : ShaCfg) (x : Nat) : Nat :=
  rotr c.bits c.bigS1.1 x ^^^ rotr c.bits c.bigS1.2.1 x ^^^ rotr c.bits c.bigS1.2.2 x

def shaSmallSigma0 (c : ShaCfg) (x : Nat) : Nat :=
  rotr c.bits c.smlS0.1 x ^^^ rotr c.bits c.smlS0.2.1 x ^^^ (x >>> c.smlS0.2.2)

def shaSmallSigma1 (c : ShaCfg) (x : Nat) : Nat :=
  rotr c.bits c.smlS1.1 x ^^^ rotr c.bits c.smlS1.2.1 x ^^^ (x >>> c.smlS1.2.2)

/-- One SHA-2 round: mix one round constant and one schedule word into the
state. -/
def shaRound (c : ShaCfg) (st : Sha2State) (kw : Nat × Nat) : Sha2State :=
  let m := 2 ^ c.bits
  let t1 := (st.h + shaBigSigma1 c st.e +
    ((st.e &&& st.f) ^^^ ((m - 1 - st.e) &&& st.g)) + kw.1 + kw.2) % m
  let t2 := (shaBigSigma0 c st.a +
    ((st.a &&& st.b) ^^^ (st.a &&& st.c) ^^^ (st.b &&& st.c))) % m
  ⟨(t1 + t2) % m, st.a, st.b, st.c, (st.d + t1) % m, st.e, st.f, st.g⟩

/-- Extend the 16 block words into the full message schedule (64 words for
SHA-256, 80 for SHA-512). -/
def extendWords (c : ShaCfg) (ws : List Nat) : List Nat :=
  (List.range (c.K.length - 16)).foldl (fun acc _ =>
    let n := acc.length
    let w := (shaSmallSigma1 c (acc.getD (n - 2) 0) + acc.getD (n - 7) 0 +
      shaSmallSigma0 c (acc.getD (n - 15) 0) + acc.getD (n - 16) 0) % 2 ^ c.bits
    acc ++ [w]) ws

/-- Compress one padded message block into the state. -/
def compressBlock (c : ShaCfg) (st : Sha2State) (block : List Nat) : Sha2State :=
  let wb := c.bits / 8
  let ws0 := (List.range 16).map (fun i => bytesToWord ((block.drop (i * wb)).take wb))
  let ws := extendWords c ws0
  let t := (c.K.zip ws).foldl (shaRound c) st
  let m := 2 ^ c.bits
  ⟨(st.a + t.a) % m, (st.b + t.b) % m, (st.c + t.c) % m, (st.d + t.d) % m,
   (st.e + t.e) % m, (st.f + t.f) % m, (st.g + t.g) % m, (st.h + t.h) % m⟩

/-- Merkle–Damgård padding: append 0x80, zeros, then the bit length. -/
def shaPad (c : ShaCfg) (msg : List Nat) : List Nat :=
  let z := (c.bs - 1 - c.lenBytes + c.bs - msg.length % c.bs) % c.bs
  msg ++ 0x80 :: List.replicate z 0 ++ wordBytes c.lenBytes (8 * msg.length)

/-- Full SHA-2 digest of a byte string: pad, compress each block, serialize
the final state big-endian. -/
def sha2 (c : ShaCfg) (msg : List Nat) : List Nat :=
  let padded := shaPad c msg
  let nB := padded.length / c.bs
  let fin := (List.range nB).foldl
    (fun st i => compressBlock c st ((padded.drop (i * c.bs)).take c.bs)) c.H0
  let wb := c.bits / 8
  wordBytes wb fin.a ++ wordBytes wb fin.b ++ wordBytes wb fin.c ++ wordBytes wb fin.d ++
  wordBytes wb fin.e ++ wordBytes wb fin.f ++ wordBytes wb fin.g ++ wordBytes wb fin.h

def sha256Cfg : ShaCfg :=
  ⟨32, 64, 8,
   [1116352408, 1899447441, 3049323471, 3921009573, 961987163, 1508970993,
    2453635748, 2870763221, 3624381080, 310598401, 607225278, 1426881987,
    1925078388, 2162078206, 2614888103, 3248222580, 3835390401, 4022224774,
    264347078, 604807628, 770255983, 1249150122, 1555081692, 1996064986,
    2554220882, 2821834349, 2952996808, 3210313671, 3336571891, 3584528711,
    113926993, 338241895, 666307205, 773529912, 1294757372, 1396182291,
    1695183700, 1986661051, 2177026350, 2456956037, 2730485921, 2820302411,
    3259730800, 3345764771, 3516065817, 3600352804, 4094571909, 275423344,
    430227734, 506948616, 659060556, 883997877, 958139571, 1322822218,
    1537002063, 1747873779, 1955562222, 2024104815, 2227730452, 2361852424,
    2428436474, 2756734187, 3204031479, 3329325298],
   ⟨1779033703, 3144134277, 1013904242, 2773480762,
    1359893119, 2600822924, 528734635, 1541459225⟩,
   (2, 13, 22), (6, 11, 25), (7, 18, 3), (17, 19, 10)⟩

def sha512Cfg : ShaCfg :=
  ⟨64, 128, 16,
   [4794697086780616226, 8158064640168781261, 13096744586834688815,
    16840607885511220156, 4131703408338449720, 6480981068601479193,
    10538285296894168987, 12329834152419229976, 15566598209576043074,
    1334009975649890238, 2608012711638119052, 6128411473006802146,
    8268148722764581231, 9286055187155687089, 11230858885718282805,
    13951009754708518548, 16472876342353939154, 17275323862435702243,
    1135362057144423861, 2597628984639134821, 3308224258029322869,
    5365058923640841347, 6679025012923562964, 8573033837759648693,
    10970295158949994411, 12119686244451234320, 12683024718118986047,
    13788192230050041572, 14330467153632333762, 15395433587784984357,
    489312712824947311, 1452737877330783856, 2861767655752347644,
    3322285676063803686, 5560940570517711597, 5996557281743188959,
    7280758554555802590, 8532644243296465576, 9350256976987008742,
    10552545826968843579, 11727347734174303076, 12113106623233404929,
    14000437183269869457, 14369950271660146224, 15101387698204529176,
    15463397548674623760, 17586052441742319658, 1182934255886127544,
    1847814050463011016, 2177327727835720531, 2830643537854262169,
    3796741975233480872, 4115178125766777443, 5681478168544905931,
    6601373596472566643, 7507060721942968483, 8399075790359081724,
    8693463985226723168, 9568029438360202098, 10144078919501101548,
    10430055236837252648, 11840083180663258601, 13761210420658862357,
    14299343276471374635, 14566680578165727644, 15097957966210449927,
    16922976911328602910, 17689382322260857208, 500013540394364858,
    748580250866718886, 1242879168328830382, 1977374033974150939,
    2944078676154940804, 3659926193048069267, 4368137639120453308,
    4836135668995329356, 5532061633213252278, 6448918945643986474,
    6902733635092675308, 7801388544844847127],
   ⟨7640891576956012808,
    13503953896175478587,
    4354685564936845355,
    11912009170470909681,
    5840696475078001361,
    11170449401992604703,
    2270897969802886507,
    6620516959819538809⟩,
   (28, 34, 39), (14, 18, 41), (1, 8, 7), (19, 61, 6)⟩

/-- `hashlib.sha256(msg).digest()`. -/
def sha256 (msg : List Nat) : List Nat := sha2 sha256Cfg msg

/-- `hashlib.sha512(msg).digest()`. -/
def sha512 (msg : List Nat) : List Nat := sha2 sha512Cfg msg

theorem wordBytes_length (w x : Nat) : (wordBytes w x).length = w := by
  simp [wordBytes]

theorem sha2_length (c : ShaCfg) (msg : List Nat) :
    (sha2 c msg).length = 8 * (c.bits / 8) := by
  simp [sha2, wordBytes_length]
  ring

/-- A SHA-256 digest is always exactly 32 bytes. -/
theorem sha256_length (msg : List Nat) : (sha256 msg).length = 32 := by
  simp [sha256, sha2_length, sha256Cfg]

/-- A SHA-512 digest is always exactly 64 bytes. -/
theorem sha512_length (msg : List Nat) : (sha512 msg).length = 64 := by
  simp [sha512, sha2_length, sha512Cfg]

/-- `.hexdigest()`: lowercase hex encoding of a digest, as characters. -/
def hexDigest (bs : List Nat) : List Char :=
  bs.foldr (fun b acc => Nat.digitChar (b / 16) :: Nat.digitChar (b % 16) :: acc) []

theorem hexDigest_length (bs : List Nat) : (hexDigest bs).length = 2 * bs.length := by
  induction bs with
  | nil => rfl
  | cons b t ih => simp [hexDigest] at ih ⊢; omega

/-- `hmac.new(key, msg, hash).digest()` from Python's `hmac` module:
the standard HMAC construction over `hash` with the given block size. -/
def hmacDigest (hash : List Nat → List Nat) (blockSize : Nat)
    (key msg : List Nat) : List Nat :=
  let k0 := if blockSize < key.length then hash key else key
  let kp := k0 ++ List.replicate (blockSize - k0.length) 0
  hash ((kp.map (fun b => b ^^^ 0x5c)) ++ hash ((kp.map (fun b => b ^^^ 0x36)) ++ msg))

/-- `hmac.new(key, msg, hashlib.sha512).digest()`. -/
def hmacSha512 (key msg : List Nat) : List Nat := hmacDigest sha512 128 key msg

theorem hmacSha512_length (key msg : List Nat) : (hmacSha512 key msg).length = 64 := by
  simp [hmacSha512, hmacDigest, sha512_length]

/-! ## ECCHardwareManager (src/core/ecc_hardware_manager.py) -/

/-- `ECCHardwareManager._hkdf_derive`: extract `prk = sha256(salt ‖ input)`,
expand `okm = sha256(prk ‖ info ‖ 0x01)`, return the first 32 bytes
(`self.key_size = 32`). -/
def hkdfDerive (inputMaterial salt info : List Nat) : List Nat :=
  let prk := sha256 (salt ++ inputMaterial)
  let okm := sha256 (prk ++ info ++ [0x01])
  okm.take 32

/-- Byte values of the constant salt `b"OBSIDIAN_IC_CARD_KEY_V1"`. -/
def icCardSalt : List Nat := (String.toList "OBSIDIAN_IC_CARD_KEY_V1").map Char.toNat

/-- Byte values of the constant salt `b"OBSIDIAN_PHONE_KEY_V1"`. -/
def phoneSalt : List Nat := (String.toList "OBSIDIAN_PHONE_KEY_V1").map Char.toNat

/-- `ECCHardwareManager.derive_keys_from_public`: HKDF under the two domain
salts, with the DID (UTF-8 bytes) as context info. -/
def deriveKeysFromPublic (cardPublicKey phonePublicKey didBytes : List Nat) :
    List Nat × List Nat :=
  (hkdfDerive cardPublicKey icCardSalt didBytes,
   hkdfDerive phonePublicKey phoneSalt didBytes)

/-- `ECCHardwareManager.generate_key_fingerprint`:
`sha256(ic_key + phone_key).hexdigest()[:16]`. -/
def generateKeyFingerprint (icKey phoneKey : List Nat) : List Char :=
  (hexDigest (sha256 (icKey ++ phoneKey))).take 16

/-- Number of 1 bits in the binary expansion: `bin(b).count('1')`. -/
def bitCountAux : Nat → Nat → Nat
  | 0, _ => 0
  | fuel + 1, n => if n = 0 then 0 else n % 2 + bitCountAux fuel (n / 2)

def bitCount (n : Nat) : Nat :=
  bitCountAux n n

/-- `ECCHardwareManager.validate_hardware_keys`, returning `(is_valid, message)`.
The float entropy comparisons `e < 0.3` / `e > 0.7` with `e = ones/256.0`
are exact for all reachable values (`ones ≤ 256`, and `ones/256` is
exactly representable), so they are embedded as the equivalent integer
inequalities `10*ones < 768` / `10*ones > 1792`. -/
def eccValidateHardwareKeys (icKey phoneKey : List Nat) : Bool × String :=
  if icKey.length ≠ 32 then (false, "IC key must be 32 bytes")
  else if phoneKey.length ≠ 32 then (false, "Phone key must be 32 bytes")
  else if icKey = List.replicate 32 0 then (false, "IC key cannot be all zeros")
  else if phoneKey = List.replicate 32 0 then (false, "Phone key cannot be all zeros")
  else
    let icOnes := (icKey.map bitCount).sum
    let phoneOnes := (phoneKey.map bitCount).sum
    if 10 * icOnes < 768 ∨ 10 * icOnes > 1792 then (false, "IC key has unusual entropy")
    else if 10 * phoneOnes < 768 ∨ 10 * phoneOnes > 1792 then
      (false, "Phone key has unusual entropy")
    else (true, "Hardware keys valid")

/-! ## EncryptionEngine (src/core/encryption_engine.py) -/

/-- Error taxonomy of the core (spec §7 names for the `ValueError`s the
source raises). -/
inductive CoreError where
  | invalidKeyMaterial
  | fingerprintMismatch
  | authenticationFailure
  | tamperDetected
  | corruptedPayload
deriving Repr, DecidableEq

/-- `EncryptionEngine._generate_keystream`: repeated
`hmac(key, nonce ‖ counter.to_bytes(8,'big'), sha512)` blocks, concatenated
until `length` bytes exist, then truncated.  Each loop iteration appends
exactly one 64-byte digest, so the loop runs `⌈length/64⌉` times. -/
def generateKeystream (key nonce : List Nat) (length : Nat) : List Nat :=
  (((List.range ((length + 63) / 64)).map
    (fun counter => hmacSha512 key (nonce ++ wordBytes 8 counter))).join).take length

/-- `EncryptionEngine._aes_ctr_encrypt`: XOR the data with the keystream. -/
def aesCtrEncrypt (data key nonce : List Nat) : List Nat :=
  List.zipWith (fun b k => b ^^^ k) data (generateKeystream key nonce data.length)

/-- `EncryptionEngine._aes_ctr_decrypt` is identical to encryption. -/
def aesCtrDecrypt (data key nonce : List Nat) : List Nat :=
  aesCtrEncrypt data key nonce

/-- `EncryptionEngine._compute_hmac`: HMAC-SHA512 of the data under the key. -/
def computeHmac (data key : List Nat) : List Nat :=
  hmacSha512 key data

/-- `EncryptionEngine._verify_hmac`: recompute and compare
(`hmac.compare_digest` returns true exactly on equality). -/
def verifyHmac (data key tag : List Nat) : Bool :=
  computeHmac data key == tag

/-- `EncryptionEngine.encrypt` with the nonce supplied explicitly (the
source draws a random 16-byte nonce when none is given); returns
`(ciphertext, nonce, hmac_tag)`, the tag being the HMAC of the ciphertext
under the authentication key (encrypt-then-MAC). -/
def engineEncrypt (plaintext encryptionKey authenticationKey nonce : List Nat) :
    List Nat × List Nat × List Nat :=
  let ciphertext := aesCtrEncrypt plaintext encryptionKey nonce
  (ciphertext, nonce, computeHmac ciphertext authenticationKey)

/-- `EncryptionEngine.decrypt`: verify the HMAC first, raising on mismatch,
then XOR with the keystream. -/
def engineDecrypt (ciphertext encryptionKey authenticationKey nonce hmacTag : List Nat) :
    Except CoreError (List Nat) :=
  if verifyHmac ciphertext authenticationKey hmacTag then
    Except.ok (aesCtrDecrypt ciphertext encryptionKey nonce)
  else
    Except.error CoreError.authenticationFailure

/-- The computation steps `decrypt` can perform, in source order. -/
inductive EngineStep where
  | verifyTag
  | computeKeystream
  | xorData
deriving Repr, DecidableEq

/-- The sequence of steps `EncryptionEngine.decrypt` executes: the tag check
happens first, and only when it passes are the keystream and the XOR
computed (the `raise` precedes `_aes_ctr_decrypt` in the source). -/
def engineDecryptSteps (ciphertext authenticationKey hmacTag : List Nat) : List EngineStep :=
  if verifyHmac ciphertext authenticationKey hmacTag then
    [EngineStep.verifyTag, EngineStep.computeKeystream, EngineStep.xorData]
  else
    [EngineStep.verifyTag]

/-! ## DataFragmenter (src/core/fragmenter.py) -/

/-- `DataFragmenter.create_fragment_b`: first 32 bytes
(`self.fragment_b_size = 32`) of
`sha512(sha512(fragment_a) ‖ sha512(ic_key) ‖ sha512(phone_key))`. -/
def createFragmentB (fragmentA icKey phoneKey : List Nat) : List Nat :=
  let bindingData := sha512 fragmentA ++ sha512 icKey ++ sha512 phoneKey
  (sha512 bindingData).take 32

/-- `DataFragmenter.verify_fragment_binding`: recompute and compare. -/
def verifyFragmentBinding (fragmentA fragmentB icKey phoneKey : List Nat) : Bool :=
  fragmentB == createFragmentB fragmentA icKey phoneKey

/-- `DataFragmenter.compute_merkle_root`:
`sha512(sha512(sha512(a) ‖ sha512(b))).hexdigest()`. -/
def computeMerkleRoot (fragmentA fragmentB : List Nat) : List Char :=
  let combined := sha512 fragmentA ++ sha512 fragmentB
  hexDigest (sha512 (sha512 combined))

/-- `DataFragmenter.verify_merkle_root`: recompute and compare. -/
def verifyMerkleRoot (fragmentA fragmentB : List Nat) (expectedRoot : List Char) : Bool :=
  computeMerkleRoot fragmentA fragmentB == expectedRoot

/-! ## CanaryTokenManager (src/core/canary_tokens.py)
`token_size = 16`, `num_tokens = 3`. -/

/-- `CanaryTokenManager.inject_tokens` with the three random
`secrets.token_bytes(16)` canaries supplied explicitly: split the data into
three chunks (the last absorbs the remainder), interleave chunks and
canaries, and hash the concatenated canaries into the verification value. -/
def injectTokens (data : List Nat) (canaries : List (List Nat)) : List Nat × List Nat :=
  let chunkSize := data.length / 3
  let marked := (List.range 3).foldl (fun acc i =>
    let chunk := if i = 2 then data.drop (2 * chunkSize)
                 else (data.drop (i * chunkSize)).take chunkSize
    acc ++ chunk ++ canaries.getD i []) []
  (marked, sha256 canaries.flatten)

/-- The chunk/canary recovery loop of `CanaryTokenManager.verify_and_extract`:
walk the fixed stride, collecting three chunks and three 16-byte canaries. -/
def extractParts (dataWithCanaries : List Nat) (originalLength : Nat) :
    List (List Nat) × List (List Nat) :=
  let chunkSize := originalLength / 3
  let r := (List.range 3).foldl (fun st i =>
    let clen := if i = 2 then originalLength - chunkSize * 2 else chunkSize
    let chunk := (dataWithCanaries.drop st.2.2).take clen
    let canary := (dataWithCanaries.drop (st.2.2 + clen)).take 16
    (st.1 ++ [chunk], st.2.1 ++ [canary], st.2.2 + clen + 16))
    (([] : List (List Nat)), ([] : List (List Nat)), 0)
  (r.1, r.2.1)

/-- `CanaryTokenManager.verify_and_extract`: recover chunks and canaries at
the fixed stride, compare the canary hash against the verification value
(`hmac.compare_digest`), raise on mismatch, else return the joined chunks. -/
def verifyAndExtract (dataWithCanaries verification : List Nat) (originalLength : Nat) :
    Except CoreError (List Nat) :=
  let parts := extractParts dataWithCanaries originalLength
  if verification == sha256 parts.2.flatten then
    Except.ok parts.1.flatten
  else
    Except.error CoreError.tamperDetected

/-! ## SecurityCore (src/core/key_derivation.py)

`SecurityCore.protect_data` / `unprotect_data` validate the keys, handle the
key fingerprint, and delegate the nine-layer pipeline to
`split_into_fragments_advanced` / `reconstruct_data_advanced` from the
module `data_fragmentation_advanced`, which is not part of the sources; the
pipeline body below is therefore modelled from the spec (§2 control flow,
§4.4 split, §4.5 orchestrator steps) on top of the source-translated layer
functions above. -/

/-- `SecurityCore._validate_hardware_keys`: each key must be exactly 32
bytes and not all zeros; each violation raises a `ValueError`
(`InvalidKeyMaterial` in the spec's taxonomy). -/
def validateHardwareKeys (icKey phoneKey : List Nat) : Except CoreError Unit :=
  if icKey.length ≠ 32 then Except.error CoreError.invalidKeyMaterial
  else if phoneKey.length ≠ 32 then Except.error CoreError.invalidKeyMaterial
  else if icKey = List.replicate 32 0 then Except.error CoreError.invalidKeyMaterial
  else if phoneKey = List.replicate 32 0 then Except.error CoreError.invalidKeyMaterial
  else Except.ok ()

/-- A structured record: a key–value document, both sides byte strings. -/
def Record : Type := List (List Nat × List Nat)

instance : DecidableEq Record := by
  unfold Record
  infer_instance

/-- Base-255 digit expansion, little-endian; every digit is `< 255`, so the
byte `255` can terminate an encoded number. -/
def natDigits : Nat → List Nat
  | 0 => []
  | n + 1 => ((n + 1) % 255) :: natDigits ((n + 1) / 255)
decreasing_by exact Nat.div_lt_self (Nat.succ_pos n) (by norm_num)

/-- Modelled from the spec: a length field of the canonical record
serialization (`data_fragmentation_advanced` is not in the sources):
base-255 digits closed by a `255` terminator. -/
def encodeNat (n : Nat) : List Nat :=
  natDigits n ++ [255]

/-- Decoder for `encodeNat`, returning the value and the remaining bytes. -/
def decodeNat : List Nat → Option (Nat × List Nat)
  | [] => none
  | b :: bs =>
    if b = 255 then some (0, bs)
    else match decodeNat bs with
      | some (m, rest) => some (b + 255 * m, rest)
      | none => none

/-- Read exactly `n` bytes, failing when fewer are available. -/
def readBytes (n : Nat) (l : List Nat) : Option (List Nat × List Nat) :=
  if n ≤ l.length then some (l.take n, l.drop n) else none

/-- Modelled from the spec: serialization of one record entry — both byte
strings length-prefixed. -/
def entryBytes (e : List Nat × List Nat) : List Nat :=
  encodeNat e.1.length ++ e.1 ++ encodeNat e.2.length ++ e.2

/-- Modelled from the spec: "Serialize `record` to a canonical byte form"
(§4.5); the entry count followed by each length-prefixed entry. -/
def serializeRecord (r : Record) : List Nat :=
  encodeNat (List.length r) ++ (r.map entryBytes).flatten

/-- Decoder for the entry list; rejects trailing bytes so that a decode is
exactly inverse to `serializeRecord`. -/
def decodeEntries : Nat → List Nat → Option Record
  | 0, [] => some []
  | 0, _ :: _ => none
  | n + 1, l => do
    let (klen, l1) ← decodeNat l
    let (k, l2) ← readBytes klen l1
    let (vlen, l3) ← decodeNat l2
    let (v, l4) ← readBytes vlen l3
    let rest ← decodeEntries n l4
    some ((k, v) :: rest)

/-- Modelled from the spec: "Deserialize back to the structured record; any
structural parse failure is a `CorruptedPayload` error" (§4.5). -/
def deserializeRecord (l : List Nat) : Option Record := do
  let (n, l1) ← decodeNat l
  decodeEntries n l1

/-- The metadata fields `unprotect` consumes (spec §3, §6): the stored key
fingerprint, the pre-canary payload size, and the canary verification
hash. -/
structure ProtectionMetadata where
  fingerprint : List Char
  originalSize : Nat
  canaryVerification : List Nat
deriving Repr, DecidableEq

/-- The pipeline stages of `protect` / `unprotect` (spec §4.5 state
machines), used to record which work an invocation performed. -/
inductive PipelineStep where
  | validateKeys
  | fingerprintCompute
  | fingerprintCompare
  | serializeStep
  | canaryInject
  | encryptStep
  | splitStep
  | bindStep
  | commitStep
  | parseStep
  | decryptStep
  | canaryExtract
  | deserializeStep
deriving Repr, DecidableEq

/-- Modelled from the spec: `SecurityCore.protect_data` — key validation and
fingerprint from the source, then the §2/§4.5 pipeline
(serialize → inject canaries → encrypt → split `nonce ‖ tag ‖ ciphertext` →
bind FragmentB → compute commitment); the random nonce and canary tokens
are supplied explicitly.  Returns the result together with the list of
stages that actually ran. -/
def protectRun (record : Record) (icKey phoneKey nonce : List Nat)
    (canaries : List (List Nat)) :
    Except CoreError (List Nat × List Nat × List Char × ProtectionMetadata) ×
      List PipelineStep :=
  match validateHardwareKeys icKey phoneKey with
  | Except.error e => (Except.error e, [PipelineStep.validateKeys])
  | Except.ok _ =>
    let fp := generateKeyFingerprint icKey phoneKey
    let pt := serializeRecord record
    let injected := injectTokens pt canaries
    let enc := engineEncrypt injected.1 icKey phoneKey nonce
    let fragmentA := enc.2.1 ++ enc.2.2 ++ enc.1
    let fragmentB := createFragmentB fragmentA icKey phoneKey
    let root := computeMerkleRoot fragmentA fragmentB
    (Except.ok (fragmentA, fragmentB, root, ⟨fp, pt.length, injected.2⟩),
     [PipelineStep.validateKeys, PipelineStep.fingerprintCompute,
      PipelineStep.serializeStep, PipelineStep.canaryInject,
      PipelineStep.encryptStep, PipelineStep.splitStep,
      PipelineStep.bindStep, PipelineStep.commitStep])

def protectData (record : Record) (icKey phoneKey nonce : List Nat)
    (canaries : List (List Nat)) :
    Except CoreError (List Nat × List Nat × List Char × ProtectionMetadata) :=
  (protectRun record icKey phoneKey nonce canaries).1

def protectTrace (record : Record) (icKey phoneKey nonce : List Nat)
    (canaries : List (List Nat)) : List PipelineStep :=
  (protectRun record icKey phoneKey nonce canaries).2

/-- Modelled from the spec: `SecurityCore.unprotect_data` — key validation
and the fingerprint gate are translated from the source
(`key_derivation.py` lines 121–135: validate, recompute fingerprint,
compare, raise before any reconstruction); the reconstruction half
(parse `nonce ‖ tag ‖ ciphertext`, decrypt, extract canaries, deserialize)
is the spec §4.5 inverse pipeline over the source-translated layers.
Returns the result together with the stages that actually ran. -/
def unprotectRun (fragmentA fragmentB icKey phoneKey : List Nat)
    (metadata : ProtectionMetadata) :
    Except CoreError Record × List PipelineStep :=
  match validateHardwareKeys icKey phoneKey with
  | Except.error e => (Except.error e, [PipelineStep.validateKeys])
  | Except.ok _ =>
    if generateKeyFingerprint icKey phoneKey ≠ metadata.fingerprint then
      (Except.error CoreError.fingerprintMismatch,
       [PipelineStep.validateKeys, PipelineStep.fingerprintCompare])
    else
      let nonce := fragmentA.take 16
      let rest := fragmentA.drop 16
      let tag := rest.take 64
      let ciphertext := rest.drop 64
      match engineDecrypt ciphertext icKey phoneKey nonce tag with
      | Except.error e =>
        (Except.error e,
         [PipelineStep.validateKeys, PipelineStep.fingerprintCompare,
          PipelineStep.parseStep, PipelineStep.decryptStep])
      | Except.ok marked =>
        match verifyAndExtract marked metadata.canaryVerification metadata.originalSize with
        | Except.error e =>
          (Except.error e,
           [PipelineStep.validateKeys, PipelineStep.fingerprintCompare,
            PipelineStep.parseStep, PipelineStep.decryptStep,
            PipelineStep.canaryExtract])
        | Except.ok pt =>
          match deserializeRecord pt with
          | none =>
            (Except.error CoreError.corruptedPayload,
             [PipelineStep.validateKeys, PipelineStep.fingerprintCompare,
              PipelineStep.parseStep, PipelineStep.decryptStep,
              PipelineStep.canaryExtract, PipelineStep.deserializeStep])
          | some r =>
            (Except.ok r,
             [PipelineStep.validateKeys, PipelineStep.fingerprintCompare,
              PipelineStep.parseStep, PipelineStep.decryptStep,
              PipelineStep.canaryExtract, PipelineStep.deserializeStep])

def unprotectData (fragmentA fragmentB icKey phoneKey : List Nat)
    (metadata : ProtectionMetadata) : Except CoreError Record :=
  (unprotectRun fragmentA fragmentB icKey phoneKey metadata).1

def unprotectTrace (fragmentA fragmentB icKey phoneKey : List Nat)
    (metadata : ProtectionMetadata) : List PipelineStep :=
  (unprotectRun fragmentA fragmentB icKey phoneKey metadata).2

/-! ## Basic facts about the embedded primitives -/

theorem hkdfDerive_length (inputMaterial salt info : List Nat) :
    (hkdfDerive inputMaterial salt info).length = 32 := by
  simp [hkdfDerive, sha256_length]

theorem generateKeyFingerprint_length (icKey phoneKey : List Nat) :
    (generateKeyFingerprint icKey phoneKey).length = 16 := by
  simp [generateKeyFingerprint, hexDigest_length, sha256_length]

theorem generateKeystream_length (key nonce : List Nat) (length : Nat) :
    (generateKeystream key nonce length).length = length := by
  unfold generateKeystream
  rw [List.length_take, List.length_flatten, List.map_map]
  have hc : List.map (List.length ∘ fun counter => hmacSha512 key (nonce ++ wordBytes 8 counter))
      (List.range ((length + 63) / 64)) =
      List.map (fun _ => 64) (List.range ((length + 63) / 64)) :=
    List.map_congr_left (fun a _ => hmacSha512_length key (nonce ++ wordBytes 8 a))
  rw [hc, List.map_const', List.sum_replicate, List.length_range, smul_eq_mul]
  omega

theorem aesCtrEncrypt_length (data key nonce : List Nat) :
    (aesCtrEncrypt data key nonce).length = data.length := by
  simp [aesCtrEncrypt, List.length_zipWith, generateKeystream_length]

theorem zipWith_xor_cancel (l ks : List Nat) (h : ks.length = l.length) :
    List.zipWith (fun b k => b ^^^ k) (List.zipWith (fun b k => b ^^^ k) l ks) ks = l := by
  induction l generalizing ks with
  | nil => simp
  | cons a t ih =>
    cases ks with
    | nil => simp at h
    | cons b kt =>
      simp only [List.zipWith]
      simp only [List.length_cons, Nat.succ_inj] at h
      rw [ih kt h]
      simp [Nat.xor_cancel_right]

/-- Decrypting an encryption with the same key and nonce restores the data:
the ciphertext has the data's length, so the decryption keystream is the
encryption keystream, and XOR cancels bytewise. -/
theorem aesCtr_roundtrip (data key nonce : List Nat) :
    aesCtrDecrypt (aesCtrEncrypt data key nonce) key nonce = data := by
  unfold aesCtrDecrypt
  conv =>
    lhs
    rw [aesCtrEncrypt, aesCtrEncrypt_length data key nonce, aesCtrEncrypt]
  exact zipWith_xor_cancel data (generateKeystream key nonce data.length)
    (generateKeystream_length key nonce data.length)

/-- Decrypting the engine's own output under the same keys succeeds and
returns the plaintext. -/
theorem engineDecrypt_engineEncrypt (plaintext encryptionKey authenticationKey nonce : List Nat) :
    engineDecrypt (engineEncrypt plaintext encryptionKey authenticationKey nonce).1
      encryptionKey authenticationKey nonce
      (engineEncrypt plaintext encryptionKey authenticationKey nonce).2.2 =
      Except.ok plaintext := by
  unfold engineEncrypt engineDecrypt
  simp only [verifyHmac, beq_self_eq_true, if_true, ite_true]
  rw [aesCtr_roundtrip]

/-! ## Claim theorems: encryption engine -/

/-- Claim C2: `EncryptionEngine.decrypt` raises `AuthenticationFailure`
exactly when the tag is not the HMAC of the ciphertext under the MAC key,
and when it raises, the step sequence contains no keystream generation and
no XOR — authentication short-circuits decryption. -/
theorem c2_decrypt_auth_short_circuit :
    ∀ ciphertext encryptionKey authenticationKey nonce hmacTag : List Nat,
      (engineDecrypt ciphertext encryptionKey authenticationKey nonce hmacTag =
          Except.error CoreError.authenticationFailure ↔
        hmacTag ≠ computeHmac ciphertext authenticationKey) ∧
      (engineDecrypt ciphertext encryptionKey authenticationKey nonce hmacTag =
          Except.error CoreError.authenticationFailure →
        EngineStep.computeKeystream ∉
          engineDecryptSteps ciphertext authenticationKey hmacTag ∧
        EngineStep.xorData ∉ engineDecryptSteps ciphertext authenticationKey hmacTag) := by
  intro ct ek ak n tag
  by_cases h : computeHmac ct ak = tag
  · have hv : verifyHmac ct ak tag = true := by
      unfold verifyHmac
      rw [h, beq_self_eq_true]
    constructor
    · rw [engineDecrypt, hv]
      simp only [if_true, ite_true]
      constructor
      · intro hfalse
        exact absurd hfalse (by simp)
      · intro hne
        exact absurd h.symm hne
    · rw [engineDecrypt, hv]
      simp only [if_true, ite_true]
      intro hfalse
      exact absurd hfalse (by simp)
  · have hv : verifyHmac ct ak tag = false := by
      unfold verifyHmac
      rw [beq_eq_false_iff_ne]
      exact h
    constructor
    · rw [engineDecrypt, hv]
      simp only [Bool.false_eq_true, if_false, ite_false]
      constructor
      · intro _
        exact fun heq => h heq.symm
      · intro _
        trivial
    · intro _
      rw [engineDecryptSteps, hv]
      simp

/-- Witness for C2 at a concrete input: the empty tag cannot equal a 64-byte
HMAC digest, so decryption fails and performs no keystream work. -/
theorem c2_decrypt_auth_short_circuit_witness :
    engineDecrypt [] [] [] [] [] = Except.error CoreError.authenticationFailure ∧
    EngineStep.computeKeystream ∉ engineDecryptSteps [] [] [] := by
  have h := c2_decrypt_auth_short_circuit [] [] [] [] []
  have hne : ([] : List Nat) ≠ computeHmac [] [] := by
    intro heq
    have hlen := hmacSha512_length [] []
    rw [computeHmac] at heq
    rw [← heq] at hlen
    simp at hlen
  have herr := h.1.mpr hne
  exact ⟨herr, (h.2 herr).1⟩

/-- Claim C10 (amended): the authentication check of `decrypt` reads only
the ciphertext, the MAC key and the tag, so changing the nonce never turns
success into `AuthenticationFailure` or vice versa, and an authenticated
pair decrypts under the altered nonce to that nonce's keystream-XOR — which
need not differ from the original plaintext (the empty ciphertext decrypts
to the empty plaintext under every nonce). -/
theorem c10_auth_independent_of_nonce :
    ∀ ciphertext encryptionKey authenticationKey hmacTag n1 n2 : List Nat,
      (engineDecrypt ciphertext encryptionKey authenticationKey n1 hmacTag =
          Except.error CoreError.authenticationFailure ↔
        engineDecrypt ciphertext encryptionKey authenticationKey n2 hmacTag =
          Except.error CoreError.authenticationFailure) ∧
      (hmacTag = computeHmac ciphertext authenticationKey →
        engineDecrypt ciphertext encryptionKey authenticationKey n2 hmacTag =
          Except.ok (aesCtrDecrypt ciphertext encryptionKey n2)) := by
  intro ct ek ak tag n1 n2
  constructor
  · by_cases h : verifyHmac ct ak tag
    · rw [engineDecrypt, engineDecrypt, h]
      simp
    · rw [engineDecrypt, engineDecrypt, Bool.of_not_eq_true h]
      simp
  · intro htag
    have hv : verifyHmac ct ak tag = true := by
      unfold verifyHmac
      rw [htag, beq_self_eq_true]
    rw [engineDecrypt, hv]
    simp

/-- Witness for C10 at a concrete input: an authenticated empty ciphertext
decrypts under the altered nonce `[1]`. -/
theorem c10_auth_independent_of_nonce_witness :
    engineDecrypt [] [] [] [1] (computeHmac [] []) =
      Except.ok (aesCtrDecrypt [] [] [1]) :=
  (c10_auth_independent_of_nonce [] [] [] (computeHmac [] []) [0] [1]).2 rfl

/-- Counterexample to C10 as stated: for the empty ciphertext with its
valid tag, two different nonces both yield the *same* plaintext (the empty
one), so altering the nonce does not always return a different plaintext. -/
theorem c10_counterexample_same_plaintext :
    ([0] : List Nat) ≠ [1] ∧
    engineDecrypt [] [] [] [0] (computeHmac [] []) = Except.ok [] ∧
    engineDecrypt [] [] [] [1] (computeHmac [] []) = Except.ok [] := by
  refine ⟨by decide, ?_, ?_⟩ <;>
  · rw [engineDecrypt, show verifyHmac [] [] (computeHmac [] []) = true from
      beq_self_eq_true _]
    simp [aesCtrDecrypt, aesCtrEncrypt]

/-! ## Claim theorems: key derivation -/

/-- Claim C8: HKDF is the two-step extract-then-expand construction — the
derived key is the first 32 bytes of
`sha256(sha256(salt ‖ seed) ‖ context ‖ 0x01)`, always exactly 32 bytes,
and the two keys of a pair are derived under two distinct constant domain
salts. -/
theorem c8_hkdf_extract_then_expand :
    (∀ seedMaterial salt info : List Nat,
      hkdfDerive seedMaterial salt info =
        (sha256 (sha256 (salt ++ seedMaterial) ++ info ++ [0x01])).take 32 ∧
      (hkdfDerive seedMaterial salt info).length = 32) ∧
    icCardSalt ≠ phoneSalt ∧
    ∀ cardPublicKey phonePublicKey didBytes : List Nat,
      deriveKeysFromPublic cardPublicKey phonePublicKey didBytes =
        (hkdfDerive cardPublicKey icCardSalt didBytes,
         hkdfDerive phonePublicKey phoneSalt didBytes) := by
  refine ⟨fun s salt i => ⟨rfl, hkdfDerive_length s salt i⟩, ?_, fun _ _ _ => rfl⟩
  decide

/-- Counterexample to C5 as stated: the key-derivation operation has no
empty-seed check — called with the empty seed material it does not fail but
returns a (32-byte) derived key, both directly and through
`derive_keys_from_public`. -/
theorem c5_counterexample_empty_seed_derives :
    (hkdfDerive [] icCardSalt []).length = 32 ∧
    (deriveKeysFromPublic [] [] []).1.length = 32 ∧
    (deriveKeysFromPublic [] [] []).2.length = 32 := by
  exact ⟨hkdfDerive_length [] icCardSalt [],
    hkdfDerive_length [] icCardSalt [], hkdfDerive_length [] phoneSalt []⟩

/-- Claim C5 (amended): with empty seed material the derivation does not
fail; it returns the ordinary 32-byte derived key computed from the salt
and context alone — no `InvalidSeedMaterial` validation exists. -/
theorem c5_empty_seed_no_validation :
    ∀ salt info : List Nat,
      hkdfDerive [] salt info =
        (sha256 (sha256 salt ++ info ++ [0x01])).take 32 ∧
      (hkdfDerive [] salt info).length = 32 := by
  intro salt info
  constructor
  · unfold hkdfDerive
    rw [List.append_nil]
  · exact hkdfDerive_length [] salt info

/-! ## Claim theorems: fragmenter -/

/-- Claim C7: `bindFragmentB` is the pure function
`truncate32(sha512(sha512(A) ‖ sha512(keyA) ‖ sha512(keyB)))`; its result
is always exactly 32 bytes, for inputs of any size, and `verifyBinding`
accepts exactly the recomputed value. -/
theorem c7_fragment_b_binding :
    ∀ fragmentA icKey phoneKey : List Nat,
      createFragmentB fragmentA icKey phoneKey =
        (sha512 (sha512 fragmentA ++ sha512 icKey ++ sha512 phoneKey)).take 32 ∧
      (createFragmentB fragmentA icKey phoneKey).length = 32 ∧
      ∀ fragmentB : List Nat,
        verifyFragmentBinding fragmentA fragmentB icKey phoneKey = true ↔
          fragmentB = createFragmentB fragmentA icKey phoneKey := by
  intro A k1 k2
  refine ⟨rfl, ?_, ?_⟩
  · simp [createFragmentB, sha512_length]
  · intro B
    unfold verifyFragmentBinding
    exact beq_iff_eq

/-- Claim C6 (amended): `verifyCommitment` accepts exactly
`computeCommitment(A,B)`, which is the 128-hex-character
`sha512(sha512(sha512(A) ‖ sha512(B))).hexdigest()`; swapping the two
fragments changes the commitment for distinct fragments such as `[0]` and
`[1]`, though not when the fragments are equal. -/
theorem c6_commitment_verify_iff :
    (∀ fragmentA fragmentB : List Nat, ∀ commitment : List Char,
      verifyMerkleRoot fragmentA fragmentB commitment = true ↔
        commitment = computeMerkleRoot fragmentA fragmentB) ∧
    (∀ fragmentA fragmentB : List Nat,
      computeMerkleRoot fragmentA fragmentB =
        hexDigest (sha512 (sha512 (sha512 fragmentA ++ sha512 fragmentB))) ∧
      (computeMerkleRoot fragmentA fragmentB).length = 128) ∧
    computeMerkleRoot [0] [1] ≠ computeMerkleRoot [1] [0] := by
  refine ⟨?_, ?_, ?_⟩
  · intro A B c
    unfold verifyMerkleRoot
    rw [beq_iff_eq]
    exact eq_comm
  · intro A B
    refine ⟨rfl, ?_⟩
    simp [computeMerkleRoot, hexDigest_length, sha512_length]
  · decide

/-- Counterexample to C6 as stated: swapping the fragments does *not*
always change the commitment — for equal fragments the swapped pair is the
same pair, so the two commitments coincide. -/
theorem c6_counterexample_equal_fragments :
    ¬ (computeMerkleRoot [0] [0] ≠ computeMerkleRoot [0] [0]) :=
  fun h => h rfl

/-! ## Canary token layout -/

theorem take_len_append (a b : List Nat) (n : Nat) (h : a.length = n) :
    (a ++ b).take n = a := by
  subst h
  exact List.take_left a b

theorem drop_len_append (a b : List Nat) (n : Nat) (h : a.length = n) :
    (a ++ b).drop n = b := by
  subst h
  exact List.drop_left a b

/-- The extraction loop unrolled: the three chunks and three canaries sit at
the fixed stride determined by `originalLength`. -/
theorem extractParts_def (d : List Nat) (L : Nat) :
    extractParts d L =
      ([d.take (L / 3),
        (d.drop (L / 3 + 16)).take (L / 3),
        (d.drop (L / 3 + 16 + (L / 3) + 16)).take (L - L / 3 * 2)],
       [(d.drop (L / 3)).take 16,
        (d.drop (L / 3 + 16 + (L / 3))).take 16,
        (d.drop (L / 3 + 16 + (L / 3) + 16 + (L - L / 3 * 2))).take 16]) := by
  unfold extractParts
  simp only [show List.range 3 = [0, 1, 2] from rfl, List.foldl_cons, List.foldl_nil]
  norm_num

/-- Extraction recovers the chunks and canaries exactly from data laid out
as `chunk₀ ‖ token₀ ‖ chunk₁ ‖ token₁ ‖ chunk₂ ‖ token₂` with the injection
lengths. -/
theorem extractParts_layout (c0 t0 c1 t1 c2 t2 : List Nat) (L : Nat)
    (h0 : c0.length = L / 3) (h1 : c1.length = L / 3)
    (h2 : c2.length = L - L / 3 * 2)
    (ht0 : t0.length = 16) (ht1 : t1.length = 16) (ht2 : t2.length = 16) :
    extractParts (c0 ++ (t0 ++ (c1 ++ (t1 ++ (c2 ++ t2))))) L =
      ([c0, c1, c2], [t0, t1, t2]) := by
  set d := c0 ++ (t0 ++ (c1 ++ (t1 ++ (c2 ++ t2)))) with hd
  have e0 : d.drop (L / 3) = t0 ++ (c1 ++ (t1 ++ (c2 ++ t2))) :=
    drop_len_append _ _ _ h0
  have e1 : d.drop (L / 3 + 16) = c1 ++ (t1 ++ (c2 ++ t2)) := by
    rw [← List.drop_drop, e0]
    exact drop_len_append _ _ _ ht0
  have e2 : d.drop (L / 3 + 16 + (L / 3)) = t1 ++ (c2 ++ t2) := by
    rw [← List.drop_drop, e1]
    exact drop_len_append _ _ _ h1
  have e3 : d.drop (L / 3 + 16 + (L / 3) + 16) = c2 ++ t2 := by
    rw [← List.drop_drop, e2]
    exact drop_len_append _ _ _ ht1
  have e4 : d.drop (L / 3 + 16 + (L / 3) + 16 + (L - L / 3 * 2)) = t2 := by
    rw [← List.drop_drop, e3]
    exact drop_len_append _ _ _ h2
  have hc0 : d.take (L / 3) = c0 := by
    rw [hd]
    exact take_len_append _ _ _ h0
  rw [extractParts_def, e0, e1, e2, e3, e4, hc0, take_len_append _ _ _ ht0,
    take_len_append _ _ _ h1, take_len_append _ _ _ ht1,
    take_len_append _ _ _ h2, List.take_of_length_le (le_of_eq ht2)]

/-- The injection loop unrolled at three explicit canaries. -/
theorem injectTokens_def (data t0 t1 t2 : List Nat) :
    injectTokens data [t0, t1, t2] =
      (data.take (data.length / 3) ++
        (t0 ++ ((data.drop (data.length / 3)).take (data.length / 3) ++
          (t1 ++ (data.drop (2 * (data.length / 3)) ++ t2)))),
       sha256 (t0 ++ (t1 ++ t2))) := by
  unfold injectTokens
  simp only [show List.range 3 = [0, 1, 2] from rfl, List.foldl_cons, List.foldl_nil]
  norm_num [List.getD, List.append_assoc]

/-- Extraction of injected data under the matching verification hash
succeeds and returns the original data. -/
theorem canary_roundtrip (data t0 t1 t2 : List Nat)
    (ht0 : t0.length = 16) (ht1 : t1.length = 16) (ht2 : t2.length = 16) :
    verifyAndExtract (injectTokens data [t0, t1, t2]).1
      (injectTokens data [t0, t1, t2]).2 data.length = Except.ok data := by
  rw [injectTokens_def]
  have h0 : (data.take (data.length / 3)).length = data.length / 3 := by
    simp [List.length_take]
    omega
  have h1 : ((data.drop (data.length / 3)).take (data.length / 3)).length =
      data.length / 3 := by
    simp [List.length_take, List.length_drop]
    omega
  have h2 : (data.drop (2 * (data.length / 3))).length =
      data.length - data.length / 3 * 2 := by
    simp [List.length_drop]
    omega
  unfold verifyAndExtract
  rw [extractParts_layout _ _ _ _ _ _ _ h0 h1 h2 ht0 ht1 ht2]
  simp only [List.flatten, List.append_nil, beq_self_eq_true, if_true, ite_true]
  rw [← List.append_assoc, ← List.take_add, Nat.two_mul,
    List.take_append_drop]

/-! ## Claim theorems: canary tokens -/

/-- Claim C9: injecting canary tokens and then extracting with the returned
verification value and the original length restores the data exactly, and
extraction reports `TamperDetected` precisely when the hash of the token
bytes recovered at the fixed stride differs from the supplied verification
value. -/
theorem c9_canary_inject_extract :
    (∀ data t0 t1 t2 : List Nat,
      t0.length = 16 → t1.length = 16 → t2.length = 16 →
      verifyAndExtract (injectTokens data [t0, t1, t2]).1
        (injectTokens data [t0, t1, t2]).2 data.length = Except.ok data) ∧
    ∀ markedData verification : List Nat, ∀ originalLength : Nat,
      (verifyAndExtract markedData verification originalLength =
          Except.error CoreError.tamperDetected ↔
        verification ≠ sha256 (extractParts markedData originalLength).2.flatten) := by
  constructor
  · exact canary_roundtrip
  · intro marked verif L
    show (if (verif == sha256 (extractParts marked L).2.flatten) = true
        then Except.ok (extractParts marked L).1.flatten
        else Except.error CoreError.tamperDetected) =
          Except.error CoreError.tamperDetected ↔
        verif ≠ sha256 (extractParts marked L).2.flatten
    by_cases h : verif = sha256 (extractParts marked L).2.flatten
    · rw [h, beq_self_eq_true]
      simp
    · have hb : (verif == sha256 (extractParts marked L).2.flatten) = false := by
        rw [beq_eq_false_iff_ne]
        exact h
      rw [hb]
      simp [h]

/-- Witness for C9 at a concrete input: a 7-byte payload with three fixed
16-byte tokens survives the inject/extract round trip. -/
theorem c9_canary_inject_extract_witness :
    verifyAndExtract
      (injectTokens [1, 2, 3, 4, 5, 6, 7]
        [List.replicate 16 0, List.replicate 16 1, List.replicate 16 2]).1
      (injectTokens [1, 2, 3, 4, 5, 6, 7]
        [List.replicate 16 0, List.replicate 16 1, List.replicate 16 2]).2
      7 = Except.ok [1, 2, 3, 4, 5, 6, 7] :=
  c9_canary_inject_extract.1 [1, 2, 3, 4, 5, 6, 7] (List.replicate 16 0)
    (List.replicate 16 1) (List.replicate 16 2) (by simp) (by simp) (by simp)

/-! ## Serialization round trip -/

theorem decodeNat_encode (n : Nat) (rest : List Nat) :
    decodeNat (encodeNat n ++ rest) = some (n, rest) := by
  unfold encodeNat
  induction n using natDigits.induct with
  | case1 =>
    simp [natDigits, decodeNat]
  | case2 m ih =>
    rw [natDigits]
    have hb : (m + 1) % 255 ≠ 255 := by
      have := Nat.mod_lt (m + 1) (show 0 < 255 by norm_num)
      omega
    simp only [List.cons_append, decodeNat, if_neg hb]
    rw [List.append_assoc] at ih
    simp only [List.append_eq, List.append_assoc]
    rw [ih]
    have : (m + 1) % 255 + 255 * ((m + 1) / 255) = m + 1 := Nat.mod_add_div (m + 1) 255
    simp [this]

theorem readBytes_exact (k rest : List Nat) :
    readBytes k.length (k ++ rest) = some (k, rest) := by
  unfold readBytes
  rw [if_pos (by simp)]
  rw [List.take_left, List.drop_left]

theorem decodeEntries_roundtrip (r : Record) :
    decodeEntries (List.length r) ((r.map entryBytes).flatten) = some r := by
  induction r with
  | nil => rfl
  | cons e t ih =>
    obtain ⟨k, v⟩ := e
    show decodeEntries (t.length + 1)
      (entryBytes (k, v) ++ (t.map entryBytes).flatten) = _
    have hkv : entryBytes (k, v) ++ (t.map entryBytes).flatten =
        encodeNat k.length ++ (k ++ (encodeNat v.length ++
          (v ++ (t.map entryBytes).flatten))) := by
      simp [entryBytes, List.append_assoc]
    rw [hkv]
    unfold decodeEntries
    rw [decodeNat_encode]
    simp only [Option.bind_eq_bind, Option.some_bind]
    rw [readBytes_exact]
    simp only [Option.some_bind]
    rw [decodeNat_encode]
    simp only [Option.some_bind]
    rw [readBytes_exact]
    simp only [Option.some_bind]
    rw [ih]
    simp only [Option.some_bind]

theorem deserialize_serialize (r : Record) :
    deserializeRecord (serializeRecord r) = some r := by
  unfold deserializeRecord serializeRecord
  rw [decodeNat_encode]
  simp only [Option.bind_eq_bind, Option.some_bind]
  exact decodeEntries_roundtrip r

/-- The protect-then-unprotect composition of spec §8: run `protect`, feed
its four outputs and the same keys to `unprotect`. -/
def roundTrip (record : Record) (icKey phoneKey nonce : List Nat)
    (canaries : List (List Nat)) : Except CoreError Record :=
  match protectData record icKey phoneKey nonce canaries with
  | Except.ok out => unprotectData out.1 out.2.1 icKey phoneKey out.2.2.2
  | Except.error e => Except.error e

/-! ## Claim theorems: protect / unprotect round trip -/

/-- Claim C1: for every structured record and every key pair passing key
validation, protecting and then unprotecting with the same keys and the
returned metadata restores the record exactly (for any 16-byte nonce and
any three 16-byte canary tokens drawn by the pipeline). -/
theorem c1_protect_unprotect_round_trip :
    ∀ (record : Record) (icKey phoneKey nonce t0 t1 t2 : List Nat),
      validateHardwareKeys icKey phoneKey = Except.ok () →
      nonce.length = 16 →
      t0.length = 16 → t1.length = 16 → t2.length = 16 →
      roundTrip record icKey phoneKey nonce [t0, t1, t2] = Except.ok record := by
  intro record icKey phoneKey nonce t0 t1 t2 hv hn ht0 ht1 ht2
  unfold roundTrip protectData protectRun
  rw [hv]
  simp only []
  set pt := serializeRecord record with hpt
  set marked := (injectTokens pt [t0, t1, t2]).1 with hmarked
  set verif := (injectTokens pt [t0, t1, t2]).2 with hverif
  set ct := aesCtrEncrypt marked icKey nonce with hct
  set tg := computeHmac ct phoneKey with htg
  have hE1 : (engineEncrypt marked icKey phoneKey nonce).1 = ct := rfl
  have hE21 : (engineEncrypt marked icKey phoneKey nonce).2.1 = nonce := rfl
  have hE22 : (engineEncrypt marked icKey phoneKey nonce).2.2 = tg := rfl
  rw [hE1, hE21, hE22]
  unfold unprotectData unprotectRun
  rw [hv]
  simp only []
  rw [if_neg (show ¬ (generateKeyFingerprint icKey phoneKey ≠
    generateKeyFingerprint icKey phoneKey) from fun h => h rfl)]
  have htglen : tg.length = 64 := by
    rw [htg]
    exact hmacSha512_length phoneKey ct
  have e1 : (nonce ++ (tg ++ ct)).take 16 = nonce := take_len_append _ _ _ hn
  have e2 : (nonce ++ (tg ++ ct)).drop 16 = tg ++ ct := drop_len_append _ _ _ hn
  have e3 : (tg ++ ct).take 64 = tg := take_len_append _ _ _ htglen
  have e4 : (tg ++ ct).drop 64 = ct := drop_len_append _ _ _ htglen
  simp only [List.append_assoc, e1, e2, e3, e4]
  have hdec : engineDecrypt ct icKey phoneKey nonce tg = Except.ok marked := by
    rw [hct, htg, hmarked]
    exact engineDecrypt_engineEncrypt ((injectTokens pt [t0, t1, t2]).1) icKey phoneKey nonce
  rw [hdec]
  simp only []
  have hcan : verifyAndExtract marked verif pt.length = Except.ok pt := by
    rw [hmarked, hverif]
    exact canary_roundtrip pt t0 t1 t2 ht0 ht1 ht2
  rw [hcan]
  simp only []
  rw [hpt, deserialize_serialize]

/-- Witness for C1 at spec §8 Scenario A's keys: a concrete two-field
record survives the protect/unprotect round trip. -/
theorem c1_round_trip_witness :
    roundTrip [([1, 2], [3, 4])] (List.replicate 32 0x11) (List.replicate 32 0x22)
      (List.replicate 16 7)
      [List.replicate 16 1, List.replicate 16 2, List.replicate 16 3] =
      Except.ok [([1, 2], [3, 4])] :=
  c1_protect_unprotect_round_trip [([1, 2], [3, 4])] (List.replicate 32 0x11)
    (List.replicate 32 0x22) (List.replicate 16 7) (List.replicate 16 1)
    (List.replicate 16 2) (List.replicate 16 3)
    rfl (by decide) (by decide) (by decide) (by decide)

/-! ## Claim theorems: key validation and the fingerprint gate -/

theorem validateHardwareKeys_ok_iff (icKey phoneKey : List Nat) :
    validateHardwareKeys icKey phoneKey = Except.ok () ↔
      (icKey.length = 32 ∧ phoneKey.length = 32 ∧
       icKey ≠ List.replicate 32 0 ∧ phoneKey ≠ List.replicate 32 0) := by
  unfold validateHardwareKeys
  split_ifs <;> simp_all

theorem validateHardwareKeys_cases (icKey phoneKey : List Nat) :
    validateHardwareKeys icKey phoneKey = Except.ok () ∨
      validateHardwareKeys icKey phoneKey = Except.error CoreError.invalidKeyMaterial := by
  unfold validateHardwareKeys
  split_ifs <;> simp

/-- The sixteen lowercase hex characters. -/
def hexCharset : List Char :=
  (List.range 16).map Nat.digitChar

theorem sha2_bytes_lt (c : ShaCfg) (msg : List Nat) :
    ∀ b ∈ sha2 c msg, b < 256 := by
  intro b hb
  simp only [sha2, List.mem_append, wordBytes, List.mem_map, List.mem_range] at hb
  rcases hb with ((((((h | h) | h) | h) | h) | h) | h) | h <;>
    obtain ⟨i, _, rfl⟩ := h <;> exact Nat.mod_lt _ (by norm_num)

theorem hexDigest_mem_charset (bs : List Nat) (hb : ∀ b ∈ bs, b < 256) :
    ∀ ch ∈ hexDigest bs, ch ∈ hexCharset := by
  induction bs with
  | nil => simp [hexDigest]
  | cons b t ih =>
    intro ch hch
    have hdig : ∀ n, n < 16 → Nat.digitChar n ∈ hexCharset := by decide
    have hblt : b < 256 := hb b (by simp)
    have hch2 : ch = Nat.digitChar (b / 16) ∨ ch = Nat.digitChar (b % 16) ∨
        ch ∈ hexDigest t := by
      simpa [hexDigest] using hch
    rcases hch2 with rfl | rfl | hmem
    · exact hdig _ (by omega)
    · exact hdig _ (by omega)
    · exact ih (fun x hx => hb x (by simp [hx])) ch hmem

/-- Claim C3 (amended): for every `unprotect` input whose keys pass key
validation, a recomputed fingerprint differing from `metadata.fingerprint`
makes `unprotect` fail with `FingerprintMismatch` immediately after the
fingerprint comparison — no parsing, decryption, canary or deserialization
work runs; and the fingerprint is the deterministic 16-hex-character prefix
of `sha256(keyA ‖ keyB).hexdigest()`. -/
theorem c3_fingerprint_gate_before_decryption :
    ∀ (fragmentA fragmentB icKey phoneKey : List Nat) (metadata : ProtectionMetadata),
      validateHardwareKeys icKey phoneKey = Except.ok () →
      generateKeyFingerprint icKey phoneKey ≠ metadata.fingerprint →
      unprotectData fragmentA fragmentB icKey phoneKey metadata =
          Except.error CoreError.fingerprintMismatch ∧
      unprotectTrace fragmentA fragmentB icKey phoneKey metadata =
        [PipelineStep.validateKeys, PipelineStep.fingerprintCompare] ∧
      PipelineStep.decryptStep ∉ unprotectTrace fragmentA fragmentB icKey phoneKey metadata ∧
      generateKeyFingerprint icKey phoneKey =
        (hexDigest (sha256 (icKey ++ phoneKey))).take 16 ∧
      (generateKeyFingerprint icKey phoneKey).length = 16 ∧
      ∀ ch ∈ generateKeyFingerprint icKey phoneKey, ch ∈ hexCharset := by
  intro fA fB k1 k2 md hv hne
  have hrun : unprotectRun fA fB k1 k2 md =
      (Except.error CoreError.fingerprintMismatch,
       [PipelineStep.validateKeys, PipelineStep.fingerprintCompare]) := by
    unfold unprotectRun
    rw [hv]
    simp only []
    rw [if_pos hne]
  refine ⟨?_, ?_, ?_, rfl, generateKeyFingerprint_length k1 k2, ?_⟩
  · unfold unprotectData
    rw [hrun]
  · unfold unprotectTrace
    rw [hrun]
  · unfold unprotectTrace
    rw [hrun]
    decide
  · intro ch hch
    have hsub : ch ∈ hexDigest (sha256 (k1 ++ k2)) := by
      unfold generateKeyFingerprint at hch
      exact List.take_subset _ _ hch
    exact hexDigest_mem_charset _ (sha2_bytes_lt _ _) ch hsub

/-- Witness for C3 at concrete valid keys and metadata whose stored
fingerprint (the empty string) cannot match. -/
theorem c3_fingerprint_gate_witness :
    unprotectData [] [] (List.replicate 32 0x11) (List.replicate 32 0x22)
      ⟨[], 0, []⟩ = Except.error CoreError.fingerprintMismatch ∧
    PipelineStep.decryptStep ∉
      unprotectTrace [] [] (List.replicate 32 0x11) (List.replicate 32 0x22)
        ⟨[], 0, []⟩ := by
  have h := c3_fingerprint_gate_before_decryption [] [] (List.replicate 32 0x11)
    (List.replicate 32 0x22) ⟨[], 0, []⟩
    rfl (fun heq => by
      have := generateKeyFingerprint_length (List.replicate 32 0x11) (List.replicate 32 0x22)
      rw [heq] at this
      simp at this)
  exact ⟨h.1, h.2.2.1⟩

/-- Counterexample to C3 as stated: an input whose recomputed fingerprint
differs from the stored one but whose keys are invalid (all-zero) raises
`InvalidKeyMaterial`, not `FingerprintMismatch` — key validation precedes
the fingerprint gate. -/
theorem c3_counterexample_invalid_keys_first :
    generateKeyFingerprint (List.replicate 32 0) (List.replicate 32 0) ≠
      ProtectionMetadata.fingerprint ⟨[], 0, []⟩ ∧
    unprotectData [] [] (List.replicate 32 0) (List.replicate 32 0) ⟨[], 0, []⟩ =
      Except.error CoreError.invalidKeyMaterial ∧
    unprotectData [] [] (List.replicate 32 0) (List.replicate 32 0) ⟨[], 0, []⟩ ≠
      Except.error CoreError.fingerprintMismatch := by
  refine ⟨?_, rfl, ?_⟩
  · intro heq
    have := generateKeyFingerprint_length (List.replicate 32 0) (List.replicate 32 0)
    rw [heq] at this
    simp at this
  · rw [show unprotectData [] [] (List.replicate 32 0) (List.replicate 32 0) ⟨[], 0, []⟩ =
      Except.error CoreError.invalidKeyMaterial from rfl]
    simp

/-- Claim C4 (amended): a key of wrong length or equal to all zeros makes
both `protect` and `unprotect` raise `InvalidKeyMaterial` with only the
validation stage run — no serialization, canary, encryption or fingerprint
work happens.  (Entropy bounds are checked only by the hardware manager's
separate validator, which returns a flag instead of raising and is not
invoked by these operations.) -/
theorem c4_wrong_length_or_zero_key_rejected :
    ∀ icKey phoneKey : List Nat,
      (icKey.length ≠ 32 ∨ phoneKey.length ≠ 32 ∨
        icKey = List.replicate 32 0 ∨ phoneKey = List.replicate 32 0) →
      ∀ (record : Record) (nonce : List Nat) (canaries : List (List Nat))
        (fragmentA fragmentB : List Nat) (metadata : ProtectionMetadata),
        protectData record icKey phoneKey nonce canaries =
            Except.error CoreError.invalidKeyMaterial ∧
        protectTrace record icKey phoneKey nonce canaries = [PipelineStep.validateKeys] ∧
        unprotectData fragmentA fragmentB icKey phoneKey metadata =
            Except.error CoreError.invalidKeyMaterial ∧
        unprotectTrace fragmentA fragmentB icKey phoneKey metadata =
          [PipelineStep.validateKeys] := by
  intro k1 k2 h record nonce canaries fA fB md
  have hv : validateHardwareKeys k1 k2 = Except.error CoreError.invalidKeyMaterial := by
    rcases validateHardwareKeys_cases k1 k2 with hok | herr
    · rw [validateHardwareKeys_ok_iff] at hok
      tauto
    · exact herr
  refine ⟨?_, ?_, ?_, ?_⟩
  · unfold protectData protectRun
    rw [hv]
  · unfold protectTrace protectRun
    rw [hv]
  · unfold unprotectData unprotectRun
    rw [hv]
  · unfold unprotectTrace unprotectRun
    rw [hv]

/-- Witness for C4 at empty (hence wrong-length) keys. -/
theorem c4_wrong_length_or_zero_key_rejected_witness :
    protectData [] [] [] [] [] = Except.error CoreError.invalidKeyMaterial ∧
    protectTrace [] [] [] [] [] = [PipelineStep.validateKeys] ∧
    unprotectData [] [] [] [] ⟨[], 0, []⟩ = Except.error CoreError.invalidKeyMaterial ∧
    unprotectTrace [] [] [] [] ⟨[], 0, []⟩ = [PipelineStep.validateKeys] :=
  c4_wrong_length_or_zero_key_rejected [] [] (Or.inl (by decide)) [] [] [] [] [] ⟨[], 0, []⟩

/-- Counterexample to C4 as stated: the key of 32 `0x01` bytes has bit-level
entropy far below the 30 % bound — the hardware manager's validator flags
it — yet `SecurityCore`'s validation accepts it and `protect` runs the
pipeline and succeeds instead of raising `InvalidKeyMaterial`. -/
theorem c4_counterexample_entropy_not_raised :
    10 * (((List.replicate 32 1).map bitCount).sum) < 768 ∧
    (eccValidateHardwareKeys (List.replicate 32 1) (List.replicate 32 1)).1 = false ∧
    validateHardwareKeys (List.replicate 32 1) (List.replicate 32 1) = Except.ok () ∧
    (protectData [] (List.replicate 32 1) (List.replicate 32 1) (List.replicate 16 0)
      [List.replicate 16 0, List.replicate 16 0, List.replicate 16 0]).isOk = true := by
  refine ⟨by decide, by decide, rfl, rfl⟩
